import Mathlib

/-!
Shallow embedding of the `indexbdmv_parser` module
(`src/indexbdmv_parser/__init__.py`): a Blu-ray INDEX.BDMV signature
parser.  The filesystem is modelled as a finite tree of named entries;
paths are lists of components.  Python exceptions raised by the
`IndexBDMV` constructor are modelled with `Except`.
-/

namespace IndexBdmv

/-- A byte, as read from a binary file. -/
abbrev Byte := Nat

/-- A filesystem entry: a regular file with its content, or a directory
with an ordered list of named children (the order models the OS
directory-listing order seen by `scandir`/`rglob`). -/
inductive Entry where
  | file (content : List Byte) : Entry
  | dir (children : List (String × Entry)) : Entry

/-- Resolve a path (list of components) inside an entry, mirroring the
OS path resolution used by `os.path.exists` and `Path.exists`:
each component must name a child of the current directory. -/
def Entry.lookup : Entry → List String → Option Entry
  | e, [] => some e
  | .file _, _ :: _ => none
  | .dir cs, n :: rest =>
    match cs.find? (fun c => c.1 == n) with
    | none => none
    | some c => Entry.lookup c.2 rest

/-- Existence test, mirroring `Path.exists` (true for files and
directories alike). -/
def Entry.existsAt (fs : Entry) (p : List String) : Bool :=
  (Entry.lookup fs p).isSome

mutual

/-- Recursive search for entries whose name equals `name`, mirroring
`Path.rglob(name)` for a wildcard-free pattern: for each directory in
pre-order, the matching children are yielded in listing order.  `pre`
is the path of the entry being traversed. -/
def Entry.rglobAux (name : String) (pre : List String) : Entry → List (List String)
  | .file _ => []
  | .dir cs =>
    (cs.filter (fun c => c.1 == name)).map (fun c => pre ++ [c.1]) ++
      rglobChildren name pre cs

/-- Traverse the children of a directory in order, collecting the
recursive matches of each child subtree. -/
def rglobChildren (name : String) (pre : List String) : List (String × Entry) → List (List String)
  | [] => []
  | c :: rest => Entry.rglobAux name (pre ++ [c.1]) c.2 ++ rglobChildren name pre rest

end

/-- Results of `directory.rglob(name)`: empty when the directory does
not exist or is not a directory (pathlib returns an empty iterator in
that case), otherwise the pre-order matches prefixed with the
directory's own path. -/
def Entry.rglobFrom (fs : Entry) (d : List String) (name : String) : List (List String) :=
  match Entry.lookup fs d with
  | none => []
  | some e => Entry.rglobAux name d e

/-- Errors the `IndexBDMV` constructor can raise: `FileNotFoundError`
when the path does not exist, and the `IsADirectoryError` raised by
`open` when the existing path is a directory. -/
inductive PyError where
  | fileNotFound : PyError
  | isADirectory : PyError

/-- The parsed record: `filename`, `is_uhd` and `version` fields of the
Python `IndexBDMV` object. -/
structure IndexBDMV where
  filename : List String
  is_uhd : Bool
  version : Option String

/-- `bytes.decode('ascii', errors='ignore')`: every byte below 128
becomes the corresponding character, every other byte is dropped, and
decoding never fails. -/
def decodeAsciiIgnore (bs : List Byte) : List Char :=
  (bs.filter (fun b => b < 128)).map Char.ofNat

/-- `str.rstrip('\0')`: remove every trailing null character. -/
def rstripNull (s : List Char) : List Char :=
  (s.reverse.dropWhile (fun c => c = Char.ofNat 0)).reverse

/-- Version tag computed from a read buffer: the first 4 bytes
(`buffer[:4]`), decoded with `decode('ascii', errors='ignore')`, with
trailing nulls stripped (`rstrip('\0')`). -/
def versionOf (buffer : List Byte) : String :=
  String.mk (rstripNull (decodeAsciiIgnore (buffer.take 4)))

/-- The `IndexBDMV.__init__` constructor: raise `FileNotFoundError` if
the path does not exist, otherwise open the file, read the first 8
bytes, and if at least 4 bytes were read decode the first 4 as the
version tag (lossy ASCII decode, trailing nulls stripped) and set
`is_uhd` to whether the tag equals "INDX0300".  The Python
`try/except` around the decode is unreachable (`errors='ignore'`
decoding and `rstrip` cannot raise), so only the live path is
embedded. -/
def IndexBDMV.parse (fs : Entry) (filename : List String) : Except PyError IndexBDMV :=
  match Entry.lookup fs filename with
  | none => .error .fileNotFound
  | some (.dir _) => .error .isADirectory
  | some (.file content) =>
    if 4 ≤ (content.take 8).length then
      .ok { filename := filename,
            is_uhd := versionOf (content.take 8) == "INDX0300",
            version := some (versionOf (content.take 8)) }
    else
      .ok { filename := filename, is_uhd := false, version := none }

/-- `find_index_file`: try `<dir>/BDMV/INDEX.BDMV`, then
`<dir>/INDEX.BDMV`, then the first `rglob("INDEX.BDMV")` result, then
the first `rglob("index.bdmv")` result, else `None`. -/
def find_index_file (fs : Entry) (d : List String) : Option (List String) :=
  if Entry.existsAt fs (d ++ ["BDMV", "INDEX.BDMV"]) then
    some (d ++ ["BDMV", "INDEX.BDMV"])
  else if Entry.existsAt fs (d ++ ["INDEX.BDMV"]) then
    some (d ++ ["INDEX.BDMV"])
  else
    match Entry.rglobFrom fs d "INDEX.BDMV" with
    | p :: _ => some p
    | [] =>
      match Entry.rglobFrom fs d "index.bdmv" with
      | p :: _ => some p
      | [] => none

/-- `is_uhd_disc`: locate the index file (absence gives `false`), parse
it (any raised error is caught and gives `false`), otherwise return the
record's `is_uhd`. -/
def is_uhd_disc (fs : Entry) (d : List String) : Bool :=
  match find_index_file fs d with
  | none => false
  | some p =>
    match IndexBDMV.parse fs p with
    | .error _ => false
    | .ok r => r.is_uhd

mutual

/-- Well-formedness invariant guaranteed by real filesystems: within
any directory, no two entries share a name (an OS directory listing
never yields duplicate names). -/
def Entry.wfNames : Entry → Bool
  | .file _ => true
  | .dir cs => decide ((cs.map Prod.fst).Nodup) && wfChildren cs

/-- Well-formedness of every entry in a child list. -/
def wfChildren : List (String × Entry) → Bool
  | [] => true
  | c :: rest => Entry.wfNames c.2 && wfChildren rest

end

/-- Content `b"INDX0300\x00\x00"`: the UHD signature followed by two
null bytes. -/
def uhdBytes : List Byte :=
  [0x49, 0x4E, 0x44, 0x58, 0x30, 0x33, 0x30, 0x30, 0x00, 0x00]

/-- A filesystem containing `disc/BDMV/INDEX.BDMV` with UHD content. -/
def fsUHD : Entry :=
  .dir [("disc", .dir [("BDMV", .dir [("INDEX.BDMV", .file uhdBytes)])])]

/-- A filesystem whose index file holds a single byte. -/
def fsShort : Entry :=
  .dir [("disc", .dir [("BDMV", .dir [("INDEX.BDMV", .file [0x49])])])]

/-- A filesystem whose index file holds four null bytes. -/
def fsNull : Entry :=
  .dir [("disc", .dir [("BDMV", .dir [("INDEX.BDMV", .file [0, 0, 0, 0])])])]

/-- A filesystem with both `disc/BDMV/INDEX.BDMV` and a second
`INDEX.BDMV` elsewhere in the tree. -/
def fsBoth : Entry :=
  .dir [("disc", .dir
    [("BDMV", .dir [("INDEX.BDMV", .file uhdBytes)]),
     ("extra", .dir [("INDEX.BDMV", .file [])])])]

theorem versionOf_length_le (buffer : List Byte) : (versionOf buffer).length ≤ 4 := by
  unfold versionOf
  show (rstripNull (decodeAsciiIgnore (buffer.take 4))).length ≤ 4
  have h1 : (rstripNull (decodeAsciiIgnore (buffer.take 4))).length ≤
      (decodeAsciiIgnore (buffer.take 4)).length := by
    unfold rstripNull
    simpa using (List.dropWhile_sublist (l := (decodeAsciiIgnore (buffer.take 4)).reverse)
      (p := fun c => decide (c = Char.ofNat 0))).length_le
  have h2 : (decodeAsciiIgnore (buffer.take 4)).length ≤ (buffer.take 4).length := by
    unfold decodeAsciiIgnore
    rw [List.length_map]
    exact List.length_filter_le _ _
  have h3 : (buffer.take 4).length ≤ 4 := by
    rw [List.length_take]; omega
  omega

theorem beq_false_of_length_ne (s t : String) (h : s.length ≠ t.length) :
    (s == t) = false := by
  rw [beq_eq_false_iff_ne]
  intro he
  exact h (he ▸ rfl)

theorem versionOf_take8 (content : List Byte) :
    versionOf (content.take 8) = String.mk (rstripNull (decodeAsciiIgnore (content.take 4))) := by
  unfold versionOf
  rw [List.take_take]
  norm_num

theorem parse_ok_inv (fs : Entry) (p : List String) (r : IndexBDMV)
    (h : IndexBDMV.parse fs p = .ok r) :
    ∃ content, Entry.lookup fs p = some (.file content) ∧
      ((4 ≤ content.length ∧
          r = ⟨p, versionOf (content.take 8) == "INDX0300", some (versionOf (content.take 8))⟩) ∨
        (content.length < 4 ∧ r = ⟨p, false, none⟩)) := by
  unfold IndexBDMV.parse at h
  split at h
  · exact absurd h (by simp)
  · exact absurd h (by simp)
  · rename_i content heq
    refine ⟨content, heq, ?_⟩
    by_cases h4 : 4 ≤ (content.take 8).length
    · rw [if_pos h4] at h
      left
      have h4' : 4 ≤ content.length := by
        rw [List.length_take] at h4; omega
      exact ⟨h4', (Except.ok.injEq _ _).mp h.symm ▸ rfl⟩
    · rw [if_neg h4] at h
      right
      have h4' : content.length < 4 := by
        rw [List.length_take] at h4; omega
      exact ⟨h4', (Except.ok.injEq _ _).mp h.symm ▸ rfl⟩

/-- C1: the spec's end-to-end scenario says `is_uhd_disc("disc")` is
true for a directory `disc/BDMV/INDEX.BDMV` containing
`b"INDX0300\x00\x00"`, but the code returns false: the constructor
takes only `buffer[:4]`, so the parsed version is "INDX", which never
equals the 8-character "INDX0300". -/
theorem C1_uhd_scenario_evaluates_to_false :
    is_uhd_disc fsUHD ["disc"] = false ∧
    IndexBDMV.parse fsUHD ["disc", "BDMV", "INDEX.BDMV"] =
      .ok ⟨["disc", "BDMV", "INDEX.BDMV"], false, some "INDX"⟩ := by
  constructor <;> rfl

/-- C2: every successful construction yields a version that is absent
or at most 4 characters long, and `is_uhd` is false for every possible
file content. -/
theorem C2_version_short_and_never_uhd (fs : Entry) (p : List String)
    (r : IndexBDMV) (h : IndexBDMV.parse fs p = .ok r) :
    (r.version = none ∨ ∃ s, r.version = some s ∧ s.length ≤ 4) ∧ r.is_uhd = false := by
  obtain ⟨content, -, hcase⟩ := parse_ok_inv fs p r h
  rcases hcase with ⟨-, rfl⟩ | ⟨-, rfl⟩
  · refine ⟨Or.inr ⟨_, rfl, versionOf_length_le _⟩, ?_⟩
    show (versionOf (content.take 8) == "INDX0300") = false
    apply beq_false_of_length_ne
    have := versionOf_length_le (content.take 8)
    intro hlen
    rw [hlen] at this
    exact absurd this (by decide)
  · exact ⟨Or.inl rfl, rfl⟩

/-- C2 witness: instantiated at the concrete UHD-content filesystem. -/
theorem C2_witness :
    ((⟨["disc", "BDMV", "INDEX.BDMV"], false, some "INDX"⟩ : IndexBDMV).version = none ∨
      ∃ s, (⟨["disc", "BDMV", "INDEX.BDMV"], false, some "INDX"⟩ : IndexBDMV).version = some s ∧
        s.length ≤ 4) ∧
    (⟨["disc", "BDMV", "INDEX.BDMV"], false, some "INDX"⟩ : IndexBDMV).is_uhd = false :=
  C2_version_short_and_never_uhd fsUHD ["disc", "BDMV", "INDEX.BDMV"]
    ⟨["disc", "BDMV", "INDEX.BDMV"], false, some "INDX"⟩ (by rfl)

/-- C5: for every record produced by construction, `is_uhd` is true if
and only if `version` equals exactly "INDX0300". -/
theorem C5_is_uhd_iff_version_INDX0300 (fs : Entry) (p : List String)
    (r : IndexBDMV) (h : IndexBDMV.parse fs p = .ok r) :
    r.is_uhd = true ↔ r.version = some "INDX0300" := by
  obtain ⟨content, -, hcase⟩ := parse_ok_inv fs p r h
  rcases hcase with ⟨-, rfl⟩ | ⟨-, rfl⟩
  · show (versionOf (content.take 8) == "INDX0300") = true ↔
      some (versionOf (content.take 8)) = some "INDX0300"
    rw [beq_iff_eq, Option.some_inj]
  · simp

/-- C5 witness: instantiated at the concrete UHD-content filesystem. -/
theorem C5_witness :
    (⟨["disc", "BDMV", "INDEX.BDMV"], false, some "INDX"⟩ : IndexBDMV).is_uhd = true ↔
    (⟨["disc", "BDMV", "INDEX.BDMV"], false, some "INDX"⟩ : IndexBDMV).version =
      some "INDX0300" :=
  C5_is_uhd_iff_version_INDX0300 fsUHD ["disc", "BDMV", "INDEX.BDMV"]
    ⟨["disc", "BDMV", "INDEX.BDMV"], false, some "INDX"⟩ (by rfl)

/-- C6: constructing from a path that does not exist yields the
file-not-found error, returned to the direct caller. -/
theorem C6_missing_path_raises_not_found (fs : Entry) (p : List String)
    (h : Entry.lookup fs p = none) :
    IndexBDMV.parse fs p = .error .fileNotFound := by
  unfold IndexBDMV.parse
  rw [h]

/-- C6 witness: a path absent from the concrete filesystem. -/
theorem C6_witness :
    IndexBDMV.parse fsUHD ["missing"] = .error .fileNotFound :=
  C6_missing_path_raises_not_found fsUHD ["missing"] (by rfl)

/-- C7: an existing file shorter than 4 bytes parses successfully with
no version and `is_uhd` false. -/
theorem C7_short_file_parses_ok (fs : Entry) (p : List String) (content : List Byte)
    (hl : Entry.lookup fs p = some (.file content)) (hlen : content.length < 4) :
    IndexBDMV.parse fs p = .ok ⟨p, false, none⟩ := by
  unfold IndexBDMV.parse
  rw [hl]
  dsimp only
  have h4 : ¬ 4 ≤ (content.take 8).length := by
    rw [List.length_take]; omega
  rw [if_neg h4]

/-- C7 witness: a one-byte index file. -/
theorem C7_witness :
    IndexBDMV.parse fsShort ["disc", "BDMV", "INDEX.BDMV"] =
      .ok ⟨["disc", "BDMV", "INDEX.BDMV"], false, none⟩ :=
  C7_short_file_parses_ok fsShort ["disc", "BDMV", "INDEX.BDMV"] [0x49] (by rfl) (by decide)

/-- C8: for a file of at least 4 bytes, the version is the lossy ASCII
decode of the first 4 bytes with trailing nulls stripped; if the first
4 bytes are all null, the version is the empty string and `is_uhd` is
false. -/
theorem C8_version_is_stripped_lossy_decode (fs : Entry) (p : List String)
    (content : List Byte) (hl : Entry.lookup fs p = some (.file content))
    (h4 : 4 ≤ content.length) :
    ∃ r, IndexBDMV.parse fs p = .ok r ∧
      r.version = some (String.mk (rstripNull (decodeAsciiIgnore (content.take 4)))) ∧
      (content.take 4 = [0, 0, 0, 0] → r.version = some "" ∧ r.is_uhd = false) := by
  unfold IndexBDMV.parse
  rw [hl]
  dsimp only
  have hlen : 4 ≤ (content.take 8).length := by
    rw [List.length_take]; omega
  rw [if_pos hlen]
  refine ⟨_, rfl, ?_, ?_⟩
  · rw [versionOf_take8]
  · intro hnull
    have hv : versionOf (content.take 8) = "" := by
      rw [versionOf_take8, hnull]
      rfl
    constructor
    · show some (versionOf (content.take 8)) = some ""
      rw [hv]
    · show (versionOf (content.take 8) == "INDX0300") = false
      rw [hv]
      decide

/-- C8 witness: a four-null-byte index file. -/
theorem C8_witness :
    ∃ r, IndexBDMV.parse fsNull ["disc", "BDMV", "INDEX.BDMV"] = .ok r ∧
      r.version = some (String.mk (rstripNull (decodeAsciiIgnore
        (List.take 4 [0, 0, 0, 0])))) ∧
      (List.take 4 [0, 0, 0, 0] = [0, 0, 0, 0] → r.version = some "" ∧ r.is_uhd = false) :=
  C8_version_is_stripped_lossy_decode fsNull ["disc", "BDMV", "INDEX.BDMV"] [0, 0, 0, 0]
    (by rfl) (by decide)

/-- C3: `is_uhd_disc` is total (it is a plain `Bool`-valued function):
it is false when no index file is found, false when parsing the found
file returns an error, and otherwise equals the parsed `is_uhd`. -/
theorem C3_is_uhd_disc_total_cases (fs : Entry) (d : List String) :
    (find_index_file fs d = none → is_uhd_disc fs d = false) ∧
    ∀ p, find_index_file fs d = some p →
      (∀ e, IndexBDMV.parse fs p = .error e → is_uhd_disc fs d = false) ∧
      (∀ r, IndexBDMV.parse fs p = .ok r → is_uhd_disc fs d = r.is_uhd) := by
  constructor
  · intro h
    unfold is_uhd_disc
    rw [h]
  · intro p hp
    constructor
    · intro e he
      unfold is_uhd_disc
      rw [hp]
      dsimp only
      rw [he]
    · intro r hr
      unfold is_uhd_disc
      rw [hp]
      dsimp only
      rw [hr]

/-- C3 witness: instantiated at the concrete UHD-content filesystem. -/
theorem C3_witness :
    is_uhd_disc fsUHD ["disc"] =
      (⟨["disc", "BDMV", "INDEX.BDMV"], false, some "INDX"⟩ : IndexBDMV).is_uhd :=
  ((C3_is_uhd_disc_total_cases fsUHD ["disc"]).2 ["disc", "BDMV", "INDEX.BDMV"] (by rfl)).2
    ⟨["disc", "BDMV", "INDEX.BDMV"], false, some "INDX"⟩ (by rfl)

/-- C4: `find_index_file` checks candidates in strict priority order:
`<dir>/BDMV/INDEX.BDMV` first (returned whenever it exists, regardless
of anything else in the tree), then `<dir>/INDEX.BDMV`, then the first
recursive-search result for "INDEX.BDMV" followed by the first for
"index.bdmv". -/
theorem C4_priority_order (fs : Entry) (d : List String) :
    (Entry.existsAt fs (d ++ ["BDMV", "INDEX.BDMV"]) = true →
      find_index_file fs d = some (d ++ ["BDMV", "INDEX.BDMV"])) ∧
    (Entry.existsAt fs (d ++ ["BDMV", "INDEX.BDMV"]) = false →
      Entry.existsAt fs (d ++ ["INDEX.BDMV"]) = true →
      find_index_file fs d = some (d ++ ["INDEX.BDMV"])) ∧
    (Entry.existsAt fs (d ++ ["BDMV", "INDEX.BDMV"]) = false →
      Entry.existsAt fs (d ++ ["INDEX.BDMV"]) = false →
      find_index_file fs d =
        (Entry.rglobFrom fs d "INDEX.BDMV" ++ Entry.rglobFrom fs d "index.bdmv").head?) := by
  refine ⟨?_, ?_, ?_⟩
  · intro h1
    unfold find_index_file
    rw [if_pos h1]
  · intro h1 h2
    unfold find_index_file
    rw [if_neg (by simp [h1]), if_pos h2]
  · intro h1 h2
    unfold find_index_file
    rw [if_neg (by simp [h1]), if_neg (by simp [h2])]
    cases hg : Entry.rglobFrom fs d "INDEX.BDMV" with
    | cons p t => rfl
    | nil =>
      cases hg2 : Entry.rglobFrom fs d "index.bdmv" with
      | cons p t => rfl
      | nil => rfl

/-- C4 witness: a tree holding both `disc/BDMV/INDEX.BDMV` and a
second `INDEX.BDMV` under `disc/extra`; the standard location wins. -/
theorem C4_witness :
    find_index_file fsBoth ["disc"] = some (["disc"] ++ ["BDMV", "INDEX.BDMV"]) :=
  (C4_priority_order fsBoth ["disc"]).1 (by rfl)

theorem Entry.lookup_append (fs : Entry) (a b : List String) :
    Entry.lookup fs (a ++ b) = (Entry.lookup fs a).bind (fun e => Entry.lookup e b) := by
  induction a generalizing fs with
  | nil => simp [Entry.lookup]
  | cons n rest ih =>
    cases fs with
    | file c => rfl
    | dir cs =>
      show Entry.lookup (.dir cs) (n :: (rest ++ b)) = _
      cases hf : cs.find? (fun c => c.1 == n) with
      | none => simp [Entry.lookup, hf]
      | some c =>
        simp only [Entry.lookup, hf]
        exact ih c.2

/-- C9: when the directory argument does not exist, `find_index_file`
returns absence rather than raising: the existence probes fail and
both recursive searches are empty. -/
theorem C9_missing_directory_returns_none (fs : Entry) (d : List String)
    (h : Entry.lookup fs d = none) :
    find_index_file fs d = none := by
  have h1 : Entry.existsAt fs (d ++ ["BDMV", "INDEX.BDMV"]) = false := by
    unfold Entry.existsAt
    rw [Entry.lookup_append, h]
    rfl
  have h2 : Entry.existsAt fs (d ++ ["INDEX.BDMV"]) = false := by
    unfold Entry.existsAt
    rw [Entry.lookup_append, h]
    rfl
  have h3 : Entry.rglobFrom fs d "INDEX.BDMV" = [] := by
    unfold Entry.rglobFrom
    rw [h]
  have h4 : Entry.rglobFrom fs d "index.bdmv" = [] := by
    unfold Entry.rglobFrom
    rw [h]
  unfold find_index_file
  rw [if_neg (by simp [h1]), if_neg (by simp [h2]), h3, h4]

/-- C9 witness: a directory absent from the concrete filesystem. -/
theorem C9_witness : find_index_file fsUHD ["nope"] = none :=
  C9_missing_directory_returns_none fsUHD ["nope"] (by rfl)

theorem wfNames_dir (cs : List (String × Entry)) (hwf : Entry.wfNames (.dir cs) = true) :
    (cs.map Prod.fst).Nodup ∧ wfChildren cs = true := by
  simp only [Entry.wfNames, Bool.and_eq_true, decide_eq_true_eq] at hwf
  exact hwf

theorem wfChildren_mem (cs : List (String × Entry)) (c : String × Entry)
    (hwf : wfChildren cs = true) (hc : c ∈ cs) : Entry.wfNames c.2 = true := by
  induction cs with
  | nil => cases hc
  | cons a rest ih =>
    simp only [wfChildren, Bool.and_eq_true] at hwf
    rcases List.mem_cons.mp hc with rfl | hmem
    · exact hwf.1
    · exact ih hwf.2 hmem

theorem wfNames_lookup (fs : Entry) (d : List String) (e : Entry)
    (hwf : Entry.wfNames fs = true) (h : Entry.lookup fs d = some e) :
    Entry.wfNames e = true := by
  induction d generalizing fs with
  | nil =>
    simp only [Entry.lookup, Option.some_inj] at h
    exact h ▸ hwf
  | cons n rest ih =>
    cases fs with
    | file c => simp [Entry.lookup] at h
    | dir cs =>
      simp only [Entry.lookup] at h
      cases hf : cs.find? (fun c => c.1 == n) with
      | none => rw [hf] at h; cases h
      | some c =>
        rw [hf] at h
        exact ih c.2 (wfChildren_mem cs c (wfNames_dir cs hwf).2
          (List.mem_of_find?_eq_some hf)) h

theorem find?_key_of_mem_nodup (cs : List (String × Entry)) (c : String × Entry)
    (hnd : (cs.map Prod.fst).Nodup) (hc : c ∈ cs) :
    cs.find? (fun x => x.1 == c.1) = some c := by
  induction cs with
  | nil => cases hc
  | cons a rest ih =>
    simp only [List.map_cons, List.nodup_cons] at hnd
    rcases List.mem_cons.mp hc with rfl | hmem
    · rw [List.find?_cons_of_pos _ (by simp)]
    · have hane : (a.1 == c.1) = false := by
        rw [beq_eq_false_iff_ne]
        intro hEq
        exact hnd.1 (hEq ▸ List.mem_map_of_mem Prod.fst hmem)
      rw [List.find?_cons_of_neg _ (by simp [hane])]
      exact ih hnd.2 hmem

mutual

theorem rglobAux_mem_lookup (name : String) (pre q : List String) (e : Entry)
    (hwf : Entry.wfNames e = true) (h : q ∈ Entry.rglobAux name pre e) :
    ∃ s, q = pre ++ s ∧ (Entry.lookup e s).isSome = true := by
  cases e with
  | file c => simp [Entry.rglobAux] at h
  | dir cs =>
    obtain ⟨hnd, hch⟩ := wfNames_dir cs hwf
    simp only [Entry.rglobAux] at h
    rcases List.mem_append.mp h with hm | hm
    · obtain ⟨c, hcf, rfl⟩ := List.mem_map.mp hm
      have hcs : c ∈ cs := List.mem_of_mem_filter hcf
      refine ⟨[c.1], rfl, ?_⟩
      simp only [Entry.lookup]
      rw [find?_key_of_mem_nodup cs c hnd hcs]
      rfl
    · obtain ⟨c, s, hcs, rfl, hlk⟩ := rglobChildren_mem_lookup name pre q cs hch hm
      refine ⟨c.1 :: s, rfl, ?_⟩
      simp only [Entry.lookup]
      rw [find?_key_of_mem_nodup cs c hnd hcs]
      exact hlk

theorem rglobChildren_mem_lookup (name : String) (pre q : List String)
    (cs : List (String × Entry)) (hwf : wfChildren cs = true)
    (h : q ∈ rglobChildren name pre cs) :
    ∃ c s, c ∈ cs ∧ q = pre ++ c.1 :: s ∧ (Entry.lookup c.2 s).isSome = true := by
  cases cs with
  | nil => simp [rglobChildren] at h
  | cons a rest =>
    simp only [rglobChildren] at h
    simp only [wfChildren, Bool.and_eq_true] at hwf
    rcases List.mem_append.mp h with hm | hm
    · obtain ⟨s, rfl, hlk⟩ := rglobAux_mem_lookup name (pre ++ [a.1]) q a.2 hwf.1 hm
      exact ⟨a, s, List.mem_cons_self a rest, List.append_assoc pre [a.1] s, hlk⟩
    · obtain ⟨c, s, hcs, rfl, hlk⟩ := rglobChildren_mem_lookup name pre q rest hwf.2 hm
      exact ⟨c, s, List.mem_cons_of_mem a hcs, rfl, hlk⟩

end

theorem find_index_file_eq_head (fs : Entry) (d : List String)
    (h1 : Entry.existsAt fs (d ++ ["BDMV", "INDEX.BDMV"]) = false)
    (h2 : Entry.existsAt fs (d ++ ["INDEX.BDMV"]) = false) :
    find_index_file fs d =
      (Entry.rglobFrom fs d "INDEX.BDMV" ++ Entry.rglobFrom fs d "index.bdmv").head? := by
  unfold find_index_file
  rw [if_neg (by simp [h1]), if_neg (by simp [h2])]
  cases hg : Entry.rglobFrom fs d "INDEX.BDMV" with
  | cons p t => rfl
  | nil =>
    cases hg2 : Entry.rglobFrom fs d "index.bdmv" with
    | cons p t => rfl
    | nil => rfl

theorem rglobFrom_mem_lookup (fs : Entry) (d : List String) (name : String)
    (p : List String) (hwf : Entry.wfNames fs = true)
    (hm : p ∈ Entry.rglobFrom fs d name) :
    (Entry.lookup fs p).isSome = true := by
  unfold Entry.rglobFrom at hm
  cases he : Entry.lookup fs d with
  | none => rw [he] at hm; cases hm
  | some e =>
    rw [he] at hm
    obtain ⟨s, rfl, hlk⟩ :=
      rglobAux_mem_lookup name d p e (wfNames_lookup fs d e hwf he) hm
    rw [Entry.lookup_append, he]
    exact hlk

/-- C10: on a well-formed filesystem (no duplicate names within a
directory, which every real filesystem guarantees), every path
returned by `find_index_file` exists: the first two candidates are
guarded by an existence test and the recursive-search results come
from traversing existing entries. -/
theorem C10_returned_path_exists (fs : Entry) (d p : List String)
    (hwf : Entry.wfNames fs = true) (h : find_index_file fs d = some p) :
    (Entry.lookup fs p).isSome = true := by
  by_cases h1 : Entry.existsAt fs (d ++ ["BDMV", "INDEX.BDMV"]) = true
  · have hfi : find_index_file fs d = some (d ++ ["BDMV", "INDEX.BDMV"]) := by
      unfold find_index_file
      rw [if_pos h1]
    rw [hfi] at h
    obtain rfl := Option.some_inj.mp h
    exact h1
  · have h1' : Entry.existsAt fs (d ++ ["BDMV", "INDEX.BDMV"]) = false := by
      simpa using h1
    by_cases h2 : Entry.existsAt fs (d ++ ["INDEX.BDMV"]) = true
    · have hfi : find_index_file fs d = some (d ++ ["INDEX.BDMV"]) := by
        unfold find_index_file
        rw [if_neg (by simp [h1']), if_pos h2]
      rw [hfi] at h
      obtain rfl := Option.some_inj.mp h
      exact h2
    · have h2' : Entry.existsAt fs (d ++ ["INDEX.BDMV"]) = false := by
        simpa using h2
      rw [find_index_file_eq_head fs d h1' h2'] at h
      have hmem : p ∈ Entry.rglobFrom fs d "INDEX.BDMV" ++
          Entry.rglobFrom fs d "index.bdmv" := by
        cases hg : Entry.rglobFrom fs d "INDEX.BDMV" ++
            Entry.rglobFrom fs d "index.bdmv" with
        | nil => rw [hg] at h; cases h
        | cons q t =>
          rw [hg] at h
          simp only [List.head?, Option.some_inj] at h
          rw [h]
          exact List.mem_cons_self _ _
      rcases List.mem_append.mp hmem with hm | hm
      · exact rglobFrom_mem_lookup fs d "INDEX.BDMV" p hwf hm
      · exact rglobFrom_mem_lookup fs d "index.bdmv" p hwf hm

/-- C10 witness: instantiated at the concrete UHD-content filesystem. -/
theorem C10_witness :
    (Entry.lookup fsUHD ["disc", "BDMV", "INDEX.BDMV"]).isSome = true :=
  C10_returned_path_exists fsUHD ["disc"] ["disc", "BDMV", "INDEX.BDMV"] (by rfl) (by rfl)

end IndexBdmv
